import Mathlib

/-!
Verification of `src/AudioUnitInstrumentExample/SinSynth.cpp` (LidarSynth).

Shallow embedding conventions:
* C++ `float`/`double` values are modelled as exact rationals (`ℚ`): the
  claims under study are about the algebraic structure of the updates
  (formulas, guards, clamps, loop-exit logic), not about rounding.
* The per-frame render loops are modelled as structural recursions over the
  frame count, threading an explicit state (amplitude, phase, recorded end
  frame, and the list of contributions added into the output buffer).
* `boost::circular_buffer<T>::operator[]` performs no bounds check and never
  throws (only `at()` does); an out-of-range unchecked read therefore has no
  defined value.  We model the unchecked read as an `Option`, `none` meaning
  "undefined behaviour / no defined value".  The `try { ... } catch (...)`
  in `TestNote::Render` is embedded as `fetchVal`, which maps the `none`
  case to `0.` exactly as the (dead) handler would under a *throwing* read.
-/

/-- `const int buf_size = 128;` -/
def buf_size : ℕ := 128

/-- `float beta = 0.9;` -/
def beta : ℚ := 9 / 10

/-- `const double twopi = 2.0 * 3.14159265358979;` -/
def twopi : ℚ := 2 * (314159265358979 / 100000000000000)

/-- The moving-average update performed for each sample in the subscriber
lambda of `SinSynth::SinSynth`:
`moving_average = beta * moving_average + (1 - beta) * sample.distance + 1.;`
(C++ operator precedence: the `+ 1.` is a separate trailing addend, it is
not inside the `(1 - beta)` factor). -/
def pushMovingAverage (ma r : ℚ) : ℚ :=
  beta * ma + (1 - beta) * r + 1

/-- The value of `moving_average` after ingesting the readings `rs` in
order, starting from the initial value `float moving_average = 0;`. -/
def movingAverageAfter (rs : List ℚ) : ℚ :=
  rs.foldl pushMovingAverage 0

/-- Helper: one push from a moving average that is at least `1` with a
nonnegative reading stays at least `1`. -/
theorem pushMovingAverage_ge_one (ma r : ℚ) (hma : 1 ≤ ma) (hr : 0 ≤ r) :
    1 ≤ pushMovingAverage ma r := by
  unfold pushMovingAverage beta
  nlinarith

/-- Helper: a first push of a nonnegative reading from the initial value `0`
yields a moving average of at least `1`. -/
theorem pushMovingAverage_zero_ge_one (r : ℚ) (hr : 0 ≤ r) :
    1 ≤ pushMovingAverage 0 r := by
  unfold pushMovingAverage beta
  nlinarith

/-- Helper: folding pushes of nonnegative readings from a start of at least
`1` keeps the moving average at least `1`. -/
theorem foldl_pushMovingAverage_ge_one :
    ∀ (rs : List ℚ) (ma : ℚ), 1 ≤ ma → (∀ x ∈ rs, 0 ≤ x) →
      1 ≤ rs.foldl pushMovingAverage ma := by
  intro rs
  induction rs with
  | nil => intro ma hma _; simpa using hma
  | cons r rs ih =>
      intro ma hma hall
      have hr : 0 ≤ r := hall r (by simp)
      have : 1 ≤ pushMovingAverage ma r := pushMovingAverage_ge_one ma r hma hr
      simpa using ih (pushMovingAverage ma r) this (fun x hx => hall x (by simp [hx]))

/-- C2 counterexample: the claimed update `movingAverage' = 0.9·ma + 0.1·(r+1)`
is false for the code's update; already at `ma = 0`, `r = 0` the code yields
`1`, not `0.1`. -/
theorem C2_counterexample :
    pushMovingAverage 0 0 ≠ (9 / 10 : ℚ) * 0 + (1 / 10) * (0 + 1) := by
  unfold pushMovingAverage beta
  norm_num

/-- C2 (amended): the update is `movingAverage' = 0.9·ma + 0.1·r + 1` — the
`+1` offset is added outside the `(1−β)` factor — and consequently the first
push of reading `r` from the initial value `0` yields `0.1·r + 1`. -/
theorem C2_update_formula :
    (∀ ma r : ℚ, pushMovingAverage ma r = (9 / 10) * ma + (1 / 10) * r + 1)
    ∧ (∀ r : ℚ, movingAverageAfter [r] = (1 / 10) * r + 1) := by
  constructor
  · intro ma r
    unfold pushMovingAverage beta
    ring
  · intro r
    show pushMovingAverage 0 r = (1 / 10) * r + 1
    unfold pushMovingAverage beta
    ring

/-- C10: after the first push of a nonnegative reading the moving average is
at least `1` (hence strictly positive), every further push of a nonnegative
reading preserves "at least `1`", and therefore after any nonempty sequence
of nonnegative readings the moving average is at least `1` and positive —
so a non-positive moving average can only be observed before any reading has
been ingested. -/
theorem C10_moving_average_ge_one :
    (∀ r : ℚ, 0 ≤ r → 1 ≤ pushMovingAverage 0 r)
    ∧ (∀ ma r : ℚ, 1 ≤ ma → 0 ≤ r → 1 ≤ pushMovingAverage ma r)
    ∧ (∀ rs : List ℚ, rs ≠ [] → (∀ x ∈ rs, 0 ≤ x) →
        1 ≤ movingAverageAfter rs ∧ 0 < movingAverageAfter rs) := by
  refine ⟨pushMovingAverage_zero_ge_one, pushMovingAverage_ge_one, ?_⟩
  intro rs hne hall
  obtain ⟨r, rs', rfl⟩ : ∃ r rs', rs = r :: rs' := by
    cases rs with
    | nil => exact absurd rfl hne
    | cons r rs' => exact ⟨r, rs', rfl⟩
  have hr : 0 ≤ r := hall r (by simp)
  have h1 : 1 ≤ pushMovingAverage 0 r := pushMovingAverage_zero_ge_one r hr
  have h2 : 1 ≤ movingAverageAfter (r :: rs') := by
    unfold movingAverageAfter
    simpa using foldl_pushMovingAverage_ge_one rs' (pushMovingAverage 0 r) h1
      (fun x hx => hall x (by simp [hx]))
  exact ⟨h2, lt_of_lt_of_le one_pos h2⟩

/-- C10 witness: the theorem applied at concrete inputs. -/
theorem C10_moving_average_ge_one_w :
    1 ≤ pushMovingAverage 0 5
    ∧ 1 ≤ pushMovingAverage 2 3
    ∧ 1 ≤ movingAverageAfter [2, 3] := by
  refine ⟨C10_moving_average_ge_one.1 5 (by norm_num),
          C10_moving_average_ge_one.2.1 2 3 (by norm_num) (by norm_num),
          (C10_moving_average_ge_one.2.2 [2, 3] (by simp) ?_).1⟩
  intro x hx
  simp only [List.mem_cons, List.not_mem_nil, or_false] at hx
  rcases hx with rfl | rfl <;> norm_num

/-- The outcome of `device.get_scan()` for one batch: a scan whose samples
carry the listed distances, or a raised error (the sweep SDK surfaces device
errors as exceptions). -/
inductive BatchResult
  | ok (samples : List ℚ)
  | err
  deriving DecidableEq

/-- One observable outcome of a single iteration of the subscriber loop
`while (true) try { ... } catch (thread_aborted& e) { }`. -/
inductive IterOutcome
  | continueLoop (ma : ℚ)
  | exitLoop (ma : ℚ)
  | threadCrash (ma : ℚ)
  deriving DecidableEq

/-- One iteration of the subscriber loop in `SinSynth::SinSynth`, faithful
to the source:
* `get_scan()` raises → the exception is not a `thread_aborted`, so the
  `catch (thread_aborted&)` clause does not match and it escapes the lambda
  (`threadCrash`);
* otherwise every sample updates the shared state, then `check_exit()` runs:
  if `exit_flag` is set it throws `thread_aborted`, which is caught by the
  handler *inside* the `while (true)` — the empty handler body finishes and
  the loop continues with the next batch (`continueLoop`), exactly as when
  the flag is clear.
(The ring-buffer pushes are elided here; only the moving average is
threaded, the control flow is unchanged by this projection.) -/
def subscriberIteration (exitFlag : Bool) (batch : BatchResult) (ma : ℚ) :
    IterOutcome :=
  match batch with
  | BatchResult.err => IterOutcome.threadCrash ma
  | BatchResult.ok samples =>
      let ma1 := samples.foldl pushMovingAverage ma
      match exitFlag with
      | true => IterOutcome.continueLoop ma1
      | false => IterOutcome.continueLoop ma1

/-- C3 (code bug): with the shutdown flag set, a successfully read batch
still leads to `continueLoop` — the `thread_aborted` thrown by
`check_exit()` is caught by the handler inside the `while (true)` and the
loop goes on; a batch read error is not caught at all and escapes the
thread; and no iteration ever produces the `exitLoop` outcome, so the loop
never terminates on shutdown. -/
theorem C3_loop_never_exits :
    (∀ (samples : List ℚ) (ma : ℚ),
        subscriberIteration true (BatchResult.ok samples) ma
          = IterOutcome.continueLoop (samples.foldl pushMovingAverage ma))
    ∧ (∀ ma : ℚ, subscriberIteration true BatchResult.err ma
          = IterOutcome.threadCrash ma)
    ∧ (∀ (flag : Bool) (b : BatchResult) (ma : ℚ), ∃ ma1 : ℚ,
        subscriberIteration flag b ma = IterOutcome.continueLoop ma1
        ∨ subscriberIteration flag b ma = IterOutcome.threadCrash ma1) := by
  refine ⟨fun samples ma => rfl, fun ma => rfl, ?_⟩
  intro flag b ma
  cases b with
  | ok samples => cases flag <;> exact ⟨_, Or.inl rfl⟩
  | err => exact ⟨ma, Or.inr rfl⟩

/-- `boost::circular_buffer<std::int32_t>::operator[]` — unchecked access:
it is defined only for `0 ≤ i < size()`, performs no bounds check and never
throws; outside that range the access is undefined behaviour, modelled as
`none` ("no defined value"). -/
def circBufUncheckedGet (buf : List ℚ) (i : ℤ) : Option ℚ :=
  if h : 0 ≤ i ∧ i.toNat < buf.length then some (buf.get ⟨i.toNat, h.2⟩)
  else none

/-- The body of the `try { val = (c_buf[idx] < 1000) ? c_buf[idx] : 1000; }
catch (...) { val = 0.; }` in `TestNote::Render`, embedded under a
*throwing-read* semantics (the semantics the `catch` was evidently written
for): an in-range element is clamped at the `1000` ceiling, an out-of-range
index yields `0`.  Note that with the actual unchecked `operator[]` the
`catch` never fires (see `circBufUncheckedGet`). -/
def fetchVal (buf : List ℚ) (i : ℤ) : ℚ :=
  match circBufUncheckedGet buf i with
  | some v => if v < 1000 then v else 1000
  | none => 0

/-- C4 (code bug): at the failing input — the empty ring buffer before the
first sensor reading, index `0` — the unchecked `operator[]` read has no
defined value (it is out of range and does not throw), while the intended
caught-exception path would have produced `0`; likewise any index `≥ 128`
(as produced by the unwrapped phase of a Released voice) is out of range
for every possible buffer content. -/
theorem C4_unchecked_read :
    circBufUncheckedGet ([] : List ℚ) 0 = none
    ∧ fetchVal ([] : List ℚ) 0 = 0
    ∧ circBufUncheckedGet (List.replicate buf_size 5) 128 = none
    ∧ fetchVal (List.replicate buf_size 1200) 0 = 1000 := by
  refine ⟨rfl, rfl, ?_, ?_⟩
  · unfold circBufUncheckedGet
    rw [dif_neg]
    intro h
    have h2 := h.2
    rw [List.length_replicate] at h2
    norm_num [buf_size] at h2
  · have hget : circBufUncheckedGet (List.replicate buf_size 1200) 0
        = some 1200 := by
      unfold circBufUncheckedGet
      rw [dif_pos ⟨le_refl 0, by rw [List.length_replicate]; norm_num [buf_size]⟩]
      rw [List.get_eq_getElem, List.getElem_replicate]
    unfold fetchVal
    rw [hget]
    norm_num

/-- The C-style cast `int(x)` applied to a floating value: truncation toward
zero. -/
def cIntOfRat (x : ℚ) : ℤ :=
  if 0 ≤ x then ⌊x⌋ else ⌈x⌉

/-- `int idx = int(phase/twopi*buf_size);` — the ring-buffer index derived
from the voice phase in every rendering branch of `TestNote::Render`. -/
def bufIndex (phase : ℚ) : ℤ :=
  cIntOfRat (phase / twopi * (buf_size : ℚ))

/-- The note states of `SynthNote` (AUInstrumentBase) dispatched on by
`TestNote::Render`. -/
inductive SynthNoteState
  | free
  | attacked
  | sostenutoed
  | releasedButSostenutoed
  | releasedButSustained
  | released
  | fastReleased
  | killed
  deriving DecidableEq

/-- The three global parameters read at the top of `TestNote::Render`. -/
structure Globals where
  globalVol : ℚ
  globalAmpAttack : ℚ
  globalAmpRelease : ℚ
  deriving DecidableEq

/-- The mutable per-voice data of `TestNote` used by `Render`: the note
state, the envelope amplitude `amp`, the oscillator `phase`, and the note
frequency (`Frequency()`). -/
structure TestNote where
  state : SynthNoteState
  amp : ℚ
  phase : ℚ
  frequency : ℚ
  deriving DecidableEq

/-- The Attacked/Sostenutoed-branch amplitude update of `TestNote::Render`:
`if (amp < maxamp) amp += maxamp / (sampleRate * globalAmpAttack);`
`if (amp > maxamp) amp = maxamp;`
with `d = maxamp / (sampleRate * globalAmpAttack)`. -/
def attackAmpStep (maxamp d a : ℚ) : ℚ :=
  let a1 := if a < maxamp then a + d else a
  if a1 > maxamp then maxamp else a1

/-- The Released-branch amplitude update:
`if (amp > 0.0) amp -= maxamp / (sampleRate * globalAmpRelease);`
with `d = maxamp / (sampleRate * globalAmpRelease)`. -/
def releaseAmpStep (d a : ℚ) : ℚ :=
  if a > 0 then a - d else a

/-- The FastReleased-branch amplitude update:
`if (amp > 0.0) amp += fast_dn_slope;`. -/
def fastAmpStep (slope a : ℚ) : ℚ :=
  if a > 0 then a + slope else a

/-- The per-frame signal term `(val - moving_average) / moving_average`,
exactly as computed in every rendering branch — the division is performed
unconditionally, there is no guard on the sign of the moving average. -/
def signalOf (val ma : ℚ) : ℚ :=
  (val - ma) / ma

/-- The state threaded through the per-frame render loops: the envelope
amplitude, the phase, the recorded end frame (`endFrame`, `none` standing
for the `0xFFFFFFFF` sentinel), and the contributions added into the left
output channel so far (`left[frame] += out`). -/
structure FrameSt where
  amp : ℚ
  phase : ℚ
  endFrame : Option ℕ
  out : List ℚ
  deriving DecidableEq

/-- One frame of the Attacked/Sostenutoed/ReleasedButSostenutoed/
ReleasedButSustained branch (SinSynth.cpp lines 265–283): amplitude attack
with clamp, unguarded signal, output accumulation, then phase advance with
the `if (phase > twopi) phase -= twopi;` wrap. -/
def activeFrame (maxamp d vol freq : ℚ) (buf : List ℚ) (ma : ℚ)
    (s : FrameSt) : FrameSt :=
  let amp1 := attackAmpStep maxamp d s.amp
  let val := fetchVal buf (bufIndex s.phase)
  let out := signalOf val ma * amp1 * vol
  let phase1 := s.phase + freq
  let phase2 := if phase1 > twopi then phase1 - twopi else phase1
  { amp := amp1, phase := phase2, endFrame := s.endFrame,
    out := s.out ++ [out] }

/-- One frame of the Released branch (lines 290–308): amplitude decrement
while positive, otherwise record this frame index as the end frame if none
is recorded yet; unguarded signal; phase advance with no wrap. -/
def releasedFrame (d vol freq : ℚ) (buf : List ℚ) (ma : ℚ) (frame : ℕ)
    (s : FrameSt) : FrameSt :=
  let amp1 := releaseAmpStep d s.amp
  let ef := if s.amp > 0 then s.endFrame else
    (match s.endFrame with
     | none => some frame
     | some e => some e)
  let val := fetchVal buf (bufIndex s.phase)
  let out := signalOf val ma * amp1 * vol
  { amp := amp1, phase := s.phase + freq, endFrame := ef,
    out := s.out ++ [out] }

/-- One frame of the FastReleased branch (lines 321–338): amplitude moves by
`fast_dn_slope` while positive, same end-frame recording; unguarded signal;
phase advance with no wrap. -/
def fastFrame (slope vol freq : ℚ) (buf : List ℚ) (ma : ℚ) (frame : ℕ)
    (s : FrameSt) : FrameSt :=
  let amp1 := fastAmpStep slope s.amp
  let ef := if s.amp > 0 then s.endFrame else
    (match s.endFrame with
     | none => some frame
     | some e => some e)
  let val := fetchVal buf (bufIndex s.phase)
  let out := signalOf val ma * amp1 * vol
  { amp := amp1, phase := s.phase + freq, endFrame := ef,
    out := s.out ++ [out] }

/-- The `for (UInt32 frame=0; frame<inNumFrames; ++frame)` loop of the
Attacked-group branch. -/
def activeLoop (maxamp d vol freq : ℚ) (buf : List ℚ) (ma : ℚ) :
    ℕ → FrameSt → FrameSt
  | 0, s => s
  | n + 1, s => activeLoop maxamp d vol freq buf ma n
      (activeFrame maxamp d vol freq buf ma s)

/-- The frame loop of the Released branch; the first argument is the current
frame index. -/
def releasedLoop (d vol freq : ℚ) (buf : List ℚ) (ma : ℚ) :
    ℕ → ℕ → FrameSt → FrameSt
  | _, 0, s => s
  | frame, n + 1, s => releasedLoop d vol freq buf ma (frame + 1) n
      (releasedFrame d vol freq buf ma frame s)

/-- The frame loop of the FastReleased branch; the first argument is the
current frame index. -/
def fastLoop (slope vol freq : ℚ) (buf : List ℚ) (ma : ℚ) :
    ℕ → ℕ → FrameSt → FrameSt
  | _, 0, s => s
  | frame, n + 1, s => fastLoop slope vol freq buf ma (frame + 1) n
      (fastFrame slope vol freq buf ma frame s)

/-- The observable result of a successful `TestNote::Render` call: the
per-frame contributions added into the left channel, the contributions
added into the right channel when stereo (`right[frame] += out` adds the
same value), the updated voice, and the frame passed to `NoteEnded` (if
any). -/
structure RenderResult where
  left : List ℚ
  right : Option (List ℚ)
  note : TestNote
  ended : Option ℕ
  deriving DecidableEq

/-- `TestNote::Render` (SinSynth.cpp lines 232–351).  Parameters `maxamp`
and `fast_dn_slope` are data members of `TestNote` declared in `SinSynth.h`
(a header not under `src/`); they enter here as explicit arguments.
`numChans = inBufferList[0]->mNumberBuffers`; the function rejects
`numChans > 2` with `-1` before touching the buffers, computes
`freq = Frequency() * (twopi / sampleRate)` and dispatches on the note
state; the `default` branch renders nothing. -/
def TestNote.Render (g : Globals) (sampleRate maxamp fast_dn_slope : ℚ)
    (buf : List ℚ) (ma : ℚ) (numChans inNumFrames : ℕ)
    (note : TestNote) : Except Int RenderResult :=
  if numChans > 2 then Except.error (-1) else
  let freq := note.frequency * (twopi / sampleRate)
  let mkRight := fun (outs : List ℚ) =>
    if numChans = 2 then some outs else none
  match note.state with
  | SynthNoteState.attacked
  | SynthNoteState.sostenutoed
  | SynthNoteState.releasedButSostenutoed
  | SynthNoteState.releasedButSustained =>
      let s := activeLoop maxamp (maxamp / (sampleRate * g.globalAmpAttack))
        g.globalVol freq buf ma inNumFrames
        { amp := note.amp, phase := note.phase, endFrame := none, out := [] }
      Except.ok { left := s.out, right := mkRight s.out,
                  note := { note with amp := s.amp, phase := s.phase },
                  ended := none }
  | SynthNoteState.released =>
      let s := releasedLoop (maxamp / (sampleRate * g.globalAmpRelease))
        g.globalVol freq buf ma 0 inNumFrames
        { amp := note.amp, phase := note.phase, endFrame := none, out := [] }
      Except.ok { left := s.out, right := mkRight s.out,
                  note := { note with amp := s.amp, phase := s.phase },
                  ended := s.endFrame }
  | SynthNoteState.fastReleased =>
      let s := fastLoop fast_dn_slope g.globalVol freq buf ma 0 inNumFrames
        { amp := note.amp, phase := note.phase, endFrame := none, out := [] }
      Except.ok { left := s.out, right := mkRight s.out,
                  note := { note with amp := s.amp, phase := s.phase },
                  ended := s.endFrame }
  | _ =>
      Except.ok { left := List.replicate inNumFrames 0,
                  right := mkRight (List.replicate inNumFrames 0),
                  note := note, ended := none }

/-- Modelled from the spec: `SynthNote::Release` (AUInstrumentBase, not
under `src/`) — §4.3 "noteOff — transitions an Active voice to Released;
state change only, no immediate silence". -/
def SynthNote.Release (n : TestNote) : TestNote :=
  { n with state := SynthNoteState.released }

/-- `TestNote::Release` (SinSynth.cpp line 208): calls
`SynthNote::Release(inFrame)`. -/
def TestNote.Release (n : TestNote) : TestNote :=
  SynthNote.Release n

/-- `TestNote::FastRelease` (SinSynth.cpp line 216, comment: "voice is
being stolen."): it also calls `SynthNote::Release(inFrame)` — not a
fast-release transition. -/
def TestNote.FastRelease (n : TestNote) : TestNote :=
  SynthNote.Release n

/-- Modelled from the spec: the steal path of the voice allocator
(AUInstrumentBase, not under `src/`) — §4.3 "apply the stealing policy:
select a victim … and force it to FastReleased before reassigning its
slot", realised by invoking the victim's `FastRelease` hook (the hook's
own comment says "voice is being stolen"). -/
def stealVictim (n : TestNote) : TestNote :=
  TestNote.FastRelease n

/-- C7 counterexample: stealing an Active (attacked) voice does not put it
into the FastReleased state — it lands in Released. -/
theorem C7_counterexample :
    (stealVictim ⟨SynthNoteState.attacked, 1, 0, 0⟩).state
        ≠ SynthNoteState.fastReleased
    ∧ (stealVictim ⟨SynthNoteState.attacked, 1, 0, 0⟩).state
        = SynthNoteState.released :=
  ⟨fun h => SynthNoteState.noConfusion h, rfl⟩

/-- C7 (amended): the stolen victim is forced into the Released state
(whose render branch decays at the normal release slope), never into
FastReleased, because `TestNote::FastRelease` delegates to
`SynthNote::Release` — stealing and a plain note release act identically
on the voice. -/
theorem C7_steal_releases (n : TestNote) :
    (stealVictim n).state = SynthNoteState.released
    ∧ stealVictim n = TestNote.Release n :=
  ⟨rfl, rfl⟩

/-- C5 counterexample: with `maxamp = 1`, `sampleRate = 44100` and
`globalAmpRelease = 0.001` (the spec's own example numbers), the Released
amplitude update maps the in-range amplitude `0.01` below zero — the
per-frame update does not preserve `0 ≤ amplitude`. -/
theorem C5_counterexample :
    (0 : ℚ) ≤ 1 / 100 ∧ (1 / 100 : ℚ) ≤ 1
    ∧ releaseAmpStep (1 / (44100 * (1 / 1000))) (1 / 100) < 0 := by
  refine ⟨by norm_num, by norm_num, ?_⟩
  rw [releaseAmpStep, if_pos (by norm_num : (1 / 100 : ℚ) > 0)]
  norm_num

/-- C5 (amended): the attack update preserves `[0, maxAmplitude]`; the
Released and FastReleased updates preserve the upper bound `maxAmplitude`
but can undershoot `0` by at most one step — they stay `≥ -decrement`
(resp. `≥ fastSlope`) — and leave a non-positive amplitude unchanged. -/
theorem C5_amp_bounds (maxamp dAtk dRel slope a : ℚ)
    (hAtk : 0 < dAtk) (hRel : 0 ≤ dRel) (hSlope : slope ≤ 0)
    (h0 : 0 ≤ a) (h1 : a ≤ maxamp) :
    (0 ≤ attackAmpStep maxamp dAtk a ∧ attackAmpStep maxamp dAtk a ≤ maxamp)
    ∧ (-dRel ≤ releaseAmpStep dRel a ∧ releaseAmpStep dRel a ≤ maxamp)
    ∧ (slope ≤ fastAmpStep slope a ∧ fastAmpStep slope a ≤ maxamp)
    ∧ (a ≤ 0 → releaseAmpStep dRel a = a ∧ fastAmpStep slope a = a) := by
  unfold attackAmpStep releaseAmpStep fastAmpStep
  refine ⟨⟨?_, ?_⟩, ⟨?_, ?_⟩, ⟨?_, ?_⟩, ?_⟩
  · dsimp only; split_ifs <;> linarith
  · dsimp only; split_ifs <;> linarith
  · split_ifs <;> linarith
  · split_ifs <;> linarith
  · split_ifs <;> linarith
  · split_ifs <;> linarith
  · intro ha
    constructor <;> rw [if_neg (by linarith : ¬ a > 0)]

/-- C5 witness: the amended theorem applied at concrete inputs. -/
theorem C5_amp_bounds_w :
    ((0 : ℚ) ≤ attackAmpStep 1 (1 / 2) (3 / 4)
      ∧ attackAmpStep 1 (1 / 2) (3 / 4) ≤ 1)
    ∧ ((-(1 / 2) : ℚ) ≤ releaseAmpStep (1 / 2) (3 / 4)
      ∧ releaseAmpStep (1 / 2) (3 / 4) ≤ 1)
    ∧ ((-(1 / 4) : ℚ) ≤ fastAmpStep (-(1 / 4)) (3 / 4)
      ∧ fastAmpStep (-(1 / 4)) (3 / 4) ≤ 1)
    ∧ ((3 / 4 : ℚ) ≤ 0 → releaseAmpStep (1 / 2) (3 / 4) = 3 / 4
      ∧ fastAmpStep (-(1 / 4)) (3 / 4) = 3 / 4) :=
  C5_amp_bounds 1 (1 / 2) (1 / 2) (-(1 / 4)) (3 / 4)
    (by norm_num) (by norm_num) (by norm_num) (by norm_num) (by norm_num)

/-- C8 counterexample: a channel count of `0` is different from both `1`
and `2`, yet `Render` is not rejected — only counts strictly greater than
`2` are; with `numChans = 0` the attacked-state render proceeds and
produces output (the claim requires an unsupported-format error and no
write for every count other than 1 or 2). -/
theorem C8_counterexample :
    (0 : ℕ) ≠ 1 ∧ (0 : ℕ) ≠ 2
    ∧ TestNote.Render ⟨1, 1, 1⟩ 1 1 (-1) [] 1 0 1
        ⟨SynthNoteState.attacked, 1, 0, 0⟩
      = Except.ok ⟨[-1], none, ⟨SynthNoteState.attacked, 1, 0, 0⟩, none⟩ := by
  refine ⟨by norm_num, by norm_num, ?_⟩
  unfold TestNote.Render
  rw [if_neg (by norm_num : ¬ (0 : ℕ) > 2)]
  simp only [activeLoop, activeFrame, attackAmpStep, signalOf, fetchVal,
    circBufUncheckedGet, bufIndex, cIntOfRat, twopi]
  norm_num

/-- C8 (amended): `Render` rejects a destination channel count strictly
greater than 2 with the error `-1` before writing anything; every count
`≤ 2` — including the count `0`, which the original claim said must be
rejected — proceeds to a successful render. -/
theorem C8_channel_check (g : Globals) (sr maxamp slope ma : ℚ)
    (buf : List ℚ) (n : ℕ) (note : TestNote) :
    (∀ numChans : ℕ, 2 < numChans →
        TestNote.Render g sr maxamp slope buf ma numChans n note
          = Except.error (-1))
    ∧ (∀ numChans : ℕ, numChans ≤ 2 →
        ∃ res, TestNote.Render g sr maxamp slope buf ma numChans n note
          = Except.ok res) := by
  constructor
  · intro c hc
    unfold TestNote.Render
    rw [if_pos hc]
  · intro c hc
    unfold TestNote.Render
    rw [if_neg (by omega : ¬ c > 2)]
    rcases note with ⟨st, amp, ph, fr⟩
    cases st <;> exact ⟨_, rfl⟩

/-- C8 witness: the amended theorem applied at the concrete channel counts
`3` (rejected) and `1` (accepted). -/
theorem C8_channel_check_w :
    TestNote.Render ⟨1, 1, 1⟩ 1 1 (-1) [] 1 3 4
        ⟨SynthNoteState.attacked, 0, 0, 0⟩ = Except.error (-1)
    ∧ ∃ res, TestNote.Render ⟨1, 1, 1⟩ 1 1 (-1) [] 1 1 4
        ⟨SynthNoteState.attacked, 0, 0, 0⟩ = Except.ok res :=
  ⟨(C8_channel_check ⟨1, 1, 1⟩ 1 1 (-1) 1 [] 4
      ⟨SynthNoteState.attacked, 0, 0, 0⟩).1 3 (by norm_num),
   (C8_channel_check ⟨1, 1, 1⟩ 1 1 (-1) 1 [] 4
      ⟨SynthNoteState.attacked, 0, 0, 0⟩).2 1 (by norm_num)⟩

/-- C1 counterexample: a frame rendered with a non-positive moving average
(`moving_average = -1`) produces a nonzero contribution, not silence: the
attacked-state `Render` of one frame (empty ring buffer, so the fetched
value is `0`; amplitude and volume `1`) adds `(0 - (-1)) / (-1) = -1` into
the output buffer — the division happens unconditionally. -/
theorem C1_counterexample :
    ((-1 : ℚ) ≤ 0)
    ∧ TestNote.Render ⟨1, 1, 1⟩ 1 1 (-1) [] (-1) 1 1
        ⟨SynthNoteState.attacked, 1, 0, 0⟩
      = Except.ok ⟨[-1], none, ⟨SynthNoteState.attacked, 1, 0, 0⟩, none⟩
    ∧ [(-1 : ℚ)] ≠ [0] := by
  refine ⟨by norm_num, ?_, by norm_num⟩
  unfold TestNote.Render
  rw [if_neg (by norm_num : ¬ (1 : ℕ) > 2)]
  simp only [activeLoop, activeFrame, attackAmpStep, signalOf, fetchVal,
    circBufUncheckedGet, bufIndex, cIntOfRat, twopi]
  norm_num

/-- C1 (amended): every rendering branch computes its per-frame
contribution as `(val - movingAverage) / movingAverage · amp · vol` with
no guard on the sign of the moving average; consequently, for a negative
moving average the signal is nonzero whenever the fetched value differs
from it — silence at non-positive moving average is not guaranteed (the
update of C10 keeps the moving average `≥ 1` once a reading has arrived,
so the unguarded division divides by zero exactly before the first
reading, when `moving_average = 0`). -/
theorem C1_unguarded_division (maxamp d slope vol freq ma : ℚ)
    (buf : List ℚ) (frame : ℕ) (s : FrameSt) (hma : ma < 0) :
    ((activeFrame maxamp d vol freq buf ma s).out
        = s.out ++ [signalOf (fetchVal buf (bufIndex s.phase)) ma
            * attackAmpStep maxamp d s.amp * vol])
    ∧ ((releasedFrame d vol freq buf ma frame s).out
        = s.out ++ [signalOf (fetchVal buf (bufIndex s.phase)) ma
            * releaseAmpStep d s.amp * vol])
    ∧ ((fastFrame slope vol freq buf ma frame s).out
        = s.out ++ [signalOf (fetchVal buf (bufIndex s.phase)) ma
            * fastAmpStep slope s.amp * vol])
    ∧ (fetchVal buf (bufIndex s.phase) ≠ ma →
        signalOf (fetchVal buf (bufIndex s.phase)) ma ≠ 0) := by
  refine ⟨rfl, rfl, rfl, ?_⟩
  intro hne h
  rcases div_eq_zero_iff.mp h with h0 | h0
  · exact hne (by linarith [sub_eq_zero.mp h0])
  · exact absurd h0 (ne_of_lt hma)

/-- C1 witness: the amended theorem applied at a concrete frame state with
`moving_average = -1`; the fetched value over the empty buffer is `0 ≠ -1`,
so the signal is nonzero. -/
theorem C1_unguarded_division_w :
    ((activeFrame 1 (1 / 2) 1 1 [] (-1) ⟨1, 0, none, []⟩).out
        = [] ++ [signalOf (fetchVal [] (bufIndex 0)) (-1)
            * attackAmpStep 1 (1 / 2) 1 * 1])
    ∧ signalOf (fetchVal [] (bufIndex 0)) (-1) ≠ 0 := by
  have h := C1_unguarded_division 1 (1 / 2) (-1) 1 1 (-1) [] 0
    ⟨1, 0, none, []⟩ (by norm_num)
  refine ⟨h.1, h.2.2.2 ?_⟩
  simp only [fetchVal, circBufUncheckedGet, bufIndex, cIntOfRat]
  norm_num

/-- Helper: the phase after `n` frames of the Released loop is the initial
phase plus `n` increments — the Released branch never wraps the phase. -/
theorem releasedLoop_phase (d vol freq : ℚ) (buf : List ℚ) (ma : ℚ) :
    ∀ (n frame : ℕ) (s : FrameSt),
      (releasedLoop d vol freq buf ma frame n s).phase
        = s.phase + n * freq := by
  intro n
  induction n with
  | zero => intro frame s; simp [releasedLoop]
  | succ m ih =>
      intro frame s
      have h1 : (releasedFrame d vol freq buf ma frame s).phase
          = s.phase + freq := rfl
      calc (releasedLoop d vol freq buf ma frame (m + 1) s).phase
          = (releasedLoop d vol freq buf ma (frame + 1) m
              (releasedFrame d vol freq buf ma frame s)).phase := by
            simp [releasedLoop]
        _ = (releasedFrame d vol freq buf ma frame s).phase + m * freq :=
            ih (frame + 1) (releasedFrame d vol freq buf ma frame s)
        _ = s.phase + (m + 1 : ℕ) * freq := by
            rw [h1]; push_cast; ring

/-- Helper: the phase after `n` frames of the FastReleased loop is the
initial phase plus `n` increments — no wrap either. -/
theorem fastLoop_phase (slope vol freq : ℚ) (buf : List ℚ) (ma : ℚ) :
    ∀ (n frame : ℕ) (s : FrameSt),
      (fastLoop slope vol freq buf ma frame n s).phase
        = s.phase + n * freq := by
  intro n
  induction n with
  | zero => intro frame s; simp [fastLoop]
  | succ m ih =>
      intro frame s
      have h1 : (fastFrame slope vol freq buf ma frame s).phase
          = s.phase + freq := rfl
      calc (fastLoop slope vol freq buf ma frame (m + 1) s).phase
          = (fastLoop slope vol freq buf ma (frame + 1) m
              (fastFrame slope vol freq buf ma frame s)).phase := by
            simp [fastLoop]
        _ = (fastFrame slope vol freq buf ma frame s).phase + m * freq :=
            ih (frame + 1) (fastFrame slope vol freq buf ma frame s)
        _ = s.phase + (m + 1 : ℕ) * freq := by
            rw [h1]; push_cast; ring

/-- C9: phase advance is asymmetric across the state branches.  The
Attacked/Sostenutoed branch advances the phase by the per-frame increment
and then wraps by subtracting `2π` exactly when the sum exceeds `2π` (so,
under the usual per-block preconditions, the phase stays in `[0, 2π]`),
while the Released and FastReleased branches advance by the same increment
and never wrap: after `n` frames their phase is exactly the initial phase
plus `n` increments. -/
theorem C9_phase_asymmetry (maxamp d vol slope freq : ℚ) (buf : List ℚ)
    (ma : ℚ) (frame n : ℕ) (s : FrameSt)
    (h0 : 0 ≤ s.phase) (h1 : s.phase ≤ twopi)
    (h2 : 0 < freq) (h3 : freq ≤ twopi) :
    ((activeFrame maxamp d vol freq buf ma s).phase
        = (if s.phase + freq > twopi then s.phase + freq - twopi
           else s.phase + freq))
    ∧ 0 ≤ (activeFrame maxamp d vol freq buf ma s).phase
    ∧ (activeFrame maxamp d vol freq buf ma s).phase ≤ twopi
    ∧ ((releasedFrame d vol freq buf ma frame s).phase = s.phase + freq)
    ∧ ((fastFrame slope vol freq buf ma frame s).phase = s.phase + freq)
    ∧ ((releasedLoop d vol freq buf ma frame n s).phase
        = s.phase + n * freq)
    ∧ ((fastLoop slope vol freq buf ma frame n s).phase
        = s.phase + n * freq) := by
  refine ⟨rfl, ?_, ?_, rfl, rfl,
    releasedLoop_phase d vol freq buf ma n frame s,
    fastLoop_phase slope vol freq buf ma n frame s⟩
  · show 0 ≤ (if s.phase + freq > twopi then s.phase + freq - twopi
        else s.phase + freq)
    split_ifs <;> linarith
  · show (if s.phase + freq > twopi then s.phase + freq - twopi
        else s.phase + freq) ≤ twopi
    split_ifs <;> linarith

/-- C9 witness: the theorem applied at a concrete frame state. -/
theorem C9_phase_asymmetry_w :
    ((activeFrame 1 (1 / 2) 1 1 [] 1 ⟨1, 1, none, []⟩).phase
        = (if (1 : ℚ) + 1 > twopi then 1 + 1 - twopi else 1 + 1))
    ∧ 0 ≤ (activeFrame 1 (1 / 2) 1 1 [] 1 ⟨1, 1, none, []⟩).phase
    ∧ (activeFrame 1 (1 / 2) 1 1 [] 1 ⟨1, 1, none, []⟩).phase ≤ twopi
    ∧ ((releasedFrame (1 / 2) 1 1 [] 1 0 ⟨1, 1, none, []⟩).phase = 1 + 1)
    ∧ ((fastFrame (-(1 / 4)) 1 1 [] 1 0 ⟨1, 1, none, []⟩).phase = 1 + 1)
    ∧ ((releasedLoop (1 / 2) 1 1 [] 1 0 5 ⟨1, 1, none, []⟩).phase
        = 1 + (5 : ℕ) * 1)
    ∧ ((fastLoop (-(1 / 4)) 1 1 [] 1 0 5 ⟨1, 1, none, []⟩).phase
        = 1 + (5 : ℕ) * 1) :=
  C9_phase_asymmetry 1 (1 / 2) 1 (-(1 / 4)) 1 [] 1 0 5 ⟨1, 1, none, []⟩
    (by norm_num) (by norm_num [twopi]) (by norm_num) (by norm_num [twopi])

/-- Helper: the fields of one Released frame step, spelled out. -/
theorem releasedFrame_fields (d vol freq : ℚ) (buf : List ℚ) (ma : ℚ)
    (frame : ℕ) (s : FrameSt) :
    (releasedFrame d vol freq buf ma frame s).amp = releaseAmpStep d s.amp
    ∧ (releasedFrame d vol freq buf ma frame s).endFrame
        = (if s.amp > 0 then s.endFrame else
            (match s.endFrame with
             | none => some frame
             | some e => some e)) :=
  ⟨rfl, rfl⟩

/-- Helper: once the amplitude is non-positive and an end frame is already
recorded, the rest of the Released loop changes neither. -/
theorem releasedLoop_frozen (d vol freq : ℚ) (buf : List ℚ) (ma : ℚ) :
    ∀ (n frame : ℕ) (s : FrameSt) (e : ℕ), s.amp ≤ 0 →
      s.endFrame = some e →
      (releasedLoop d vol freq buf ma frame n s).endFrame = some e := by
  intro n
  induction n with
  | zero => intro frame s e _ he; simpa [releasedLoop] using he
  | succ m ih =>
      intro frame s e hamp he
      have hnot : ¬ s.amp > 0 := not_lt.mpr hamp
      have hstep : releasedLoop d vol freq buf ma frame (m + 1) s
          = releasedLoop d vol freq buf ma (frame + 1) m
              (releasedFrame d vol freq buf ma frame s) := by
        simp [releasedLoop]
      rw [hstep]
      refine ih (frame + 1) _ e ?_ ?_
      · rw [(releasedFrame_fields d vol freq buf ma frame s).1,
          releaseAmpStep, if_neg hnot]
        exact hamp
      · rw [(releasedFrame_fields d vol freq buf ma frame s).2, if_neg hnot, he]

/-- Helper: if the amplitude is already non-positive and no end frame is
recorded, the very next frame records the current frame index, and the
rest of the loop keeps it. -/
theorem releasedLoop_records_now (d vol freq : ℚ) (buf : List ℚ) (ma : ℚ)
    (n frame : ℕ) (s : FrameSt) (hamp : s.amp ≤ 0)
    (he : s.endFrame = none) (hn : 1 ≤ n) :
    (releasedLoop d vol freq buf ma frame n s).endFrame = some frame := by
  obtain ⟨m, rfl⟩ : ∃ m, n = m + 1 := ⟨n - 1, by omega⟩
  have hnot : ¬ s.amp > 0 := not_lt.mpr hamp
  have hstep : releasedLoop d vol freq buf ma frame (m + 1) s
      = releasedLoop d vol freq buf ma (frame + 1) m
          (releasedFrame d vol freq buf ma frame s) := by
    simp [releasedLoop]
  rw [hstep]
  refine releasedLoop_frozen d vol freq buf ma m (frame + 1) _ frame ?_ ?_
  · rw [(releasedFrame_fields d vol freq buf ma frame s).1,
      releaseAmpStep, if_neg hnot]
    exact hamp
  · rw [(releasedFrame_fields d vol freq buf ma frame s).2, if_neg hnot, he]

/-- Helper: the end frame recorded by a sufficiently long Released loop
started with no recorded end frame is `frame + ⌈amp / d⌉⁺`: the amplitude
decreases by `d` once per frame while positive, so the first frame index at
which it is found non-positive is the ceiling of `amp / d` (clamped to `0`
for non-positive starting amplitudes). -/
theorem releasedLoop_end_frame (d vol freq : ℚ) (buf : List ℚ) (ma : ℚ)
    (hd : 0 < d) :
    ∀ (n frame : ℕ) (s : FrameSt), s.endFrame = none →
      (⌈s.amp / d⌉).toNat < n →
      (releasedLoop d vol freq buf ma frame n s).endFrame
        = some (frame + (⌈s.amp / d⌉).toNat) := by
  intro n
  induction n with
  | zero => intro frame s _ hn; exact absurd hn (Nat.not_lt_zero _)
  | succ m ih =>
      intro frame s he hn
      by_cases hpos : s.amp > 0
      · -- positive amplitude: this frame decrements, no end frame yet
        have hK1 : 0 < ⌈s.amp / d⌉ := Int.ceil_pos.mpr (div_pos hpos hd)
        have hsub : (s.amp - d) / d = s.amp / d - 1 := by
          rw [sub_div, div_self (ne_of_gt hd)]
        have hK2 : ⌈(s.amp - d) / d⌉ = ⌈s.amp / d⌉ - 1 := by
          rw [hsub]
          exact_mod_cast Int.ceil_sub_int (s.amp / d) 1
        have hstep : releasedLoop d vol freq buf ma frame (m + 1) s
            = releasedLoop d vol freq buf ma (frame + 1) m
                (releasedFrame d vol freq buf ma frame s) := by
          simp [releasedLoop]
        have hamp1 : (releasedFrame d vol freq buf ma frame s).amp
            = s.amp - d := by
          rw [(releasedFrame_fields d vol freq buf ma frame s).1,
            releaseAmpStep, if_pos hpos]
        have hef1 : (releasedFrame d vol freq buf ma frame s).endFrame
            = none := by
          rw [(releasedFrame_fields d vol freq buf ma frame s).2,
            if_pos hpos, he]
        have hlt : (⌈(releasedFrame d vol freq buf ma frame s).amp / d⌉).toNat
            < m := by
          rw [hamp1, hK2]
          omega
        have := ih (frame + 1) (releasedFrame d vol freq buf ma frame s)
          hef1 hlt
        rw [hstep, this, hamp1, hK2]
        congr 1
        omega
      · -- non-positive amplitude: the end frame is recorded right now
        have hamp : s.amp ≤ 0 := le_of_not_lt hpos
        have hK0 : ⌈s.amp / d⌉ ≤ 0 := by
          apply Int.ceil_le.mpr
          simpa using div_nonpos_of_nonpos_of_nonneg hamp (le_of_lt hd)
        have : (⌈s.amp / d⌉).toNat = 0 := by omega
        rw [this, Nat.add_zero]
        exact releasedLoop_records_now d vol freq buf ma (m + 1) frame s
          hamp he (by omega)

/-- C6: rendering a Released voice over a sufficiently long block reports
to `NoteEnded` exactly the frame `⌈amp₀ / (maxAmplitude /
(sampleRate·releaseTime))⌉` — the first frame whose entry amplitude is
non-positive — and only that first frame is recorded; in particular a
Released voice whose amplitude is already `0` reports frame `0`. -/
theorem C6_released_end_frame (g : Globals) (sr maxamp slope ma : ℚ)
    (buf : List ℚ) (n : ℕ) (note : TestNote)
    (hst : note.state = SynthNoteState.released)
    (hd : 0 < maxamp / (sr * g.globalAmpRelease))
    (hn : (⌈note.amp / (maxamp / (sr * g.globalAmpRelease))⌉).toNat < n) :
    ∃ res, TestNote.Render g sr maxamp slope buf ma 1 n note
        = Except.ok res
      ∧ res.ended
        = some ((⌈note.amp / (maxamp / (sr * g.globalAmpRelease))⌉).toNat) := by
  rcases note with ⟨st, amp, ph, fr⟩
  simp only at hst
  subst hst
  simp only at hn
  unfold TestNote.Render
  rw [if_neg (by norm_num : ¬ (1 : ℕ) > 2)]
  refine ⟨_, rfl, ?_⟩
  simp only
  simpa using releasedLoop_end_frame (maxamp / (sr * g.globalAmpRelease))
    g.globalVol (fr * (twopi / sr)) buf ma hd n 0
    { amp := amp, phase := ph, endFrame := none, out := [] } rfl hn

/-- C6 witness: the theorem applied at two concrete configurations —
starting amplitude `0` (note ends at frame `0` of the block) and starting
amplitude `1` with decrement `1` (note ends at frame `⌈1/1⌉ = 1`). -/
theorem C6_released_end_frame_w :
    (∃ res, TestNote.Render ⟨1, 1, 1⟩ 1 1 (-1) [] 1 1 1
        ⟨SynthNoteState.released, 0, 0, 0⟩ = Except.ok res
      ∧ res.ended = some ((⌈(0 : ℚ) / (1 / (1 * 1))⌉).toNat))
    ∧ (∃ res, TestNote.Render ⟨1, 1, 1⟩ 1 1 (-1) [] 1 1 3
        ⟨SynthNoteState.released, 1, 0, 0⟩ = Except.ok res
      ∧ res.ended = some ((⌈(1 : ℚ) / (1 / (1 * 1))⌉).toNat)) :=
  ⟨C6_released_end_frame ⟨1, 1, 1⟩ 1 1 (-1) 1 [] 1
      ⟨SynthNoteState.released, 0, 0, 0⟩ rfl (by norm_num) (by norm_num),
   C6_released_end_frame ⟨1, 1, 1⟩ 1 1 (-1) 1 [] 3
      ⟨SynthNoteState.released, 1, 0, 0⟩ rfl (by norm_num) (by norm_num)⟩
